import Mathlib

/-!
Shallow embedding of the webapppro article API (`src/index.js`, Hono over a
relational articles table).  Timestamps are modelled as `Nat` (the "current
time" is passed explicitly to every operation).  JavaScript `undefined`/`null`
string fields are modelled as `Option String`; JS string falsiness
(`undefined`, `null` or `""`) is made explicit.  The database is the list of
article rows; slug uniqueness is the `UNIQUE` constraint of the schema.
-/

namespace WebAppPro

/-- A row of the `articles` table (schema in the db DDL). -/
structure Article where
  slug : String
  title : String
  excerpt : Option String
  content : Option String
  featured_image : Option String
  category : Option String
  author : String
  status : String
  published_at : Option Nat
  meta_title : Option String
  meta_description : Option String
  created_at : Nat
  updated_at : Nat
deriving Repr, DecidableEq

abbrev DB := List Article

/-- Error taxonomy of the route handlers (each maps to one HTTP status). -/
inductive ApiError where
  | validation
  | conflict
  | notFound
  | unauthorized
  | persistence
deriving Repr, DecidableEq

/-- HTTP status code sent for each error kind. -/
def errStatus : ApiError → Nat
  | .validation => 400
  | .conflict => 409
  | .notFound => 404
  | .unauthorized => 401
  | .persistence => 500

/-- JS `String.prototype.toLowerCase`, character by character (ASCII case map,
as exercised by the status strings of this API). -/
def jsToLower (s : String) : String := ⟨s.data.map Char.toLower⟩

/-- JS string falsiness for a possibly-absent string: `undefined`/`null`/`""`. -/
def falsyStr : Option String → Bool
  | none => true
  | some s => s = ""

/-- JS `v || d` for a possibly-absent string `v` and default `d`. -/
def jsOr (v : Option String) (d : String) : String :=
  match v with
  | none => d
  | some s => if s = "" then d else s

/-- JS `v || null`: empty string collapses to SQL NULL, as in the bind calls. -/
def nullIfFalsy : Option String → Option String
  | none => none
  | some s => if s = "" then none else some s

/-! ## Excerpt derivation (`createExcerpt`) -/

/-- The characters removed by `content.replace(/[\#\*\-\>\[\]\n]/g, '')`. -/
def mdChars : List Char := ['#', '*', '-', '>', '[', ']', '\n']

/-- JS `String.prototype.trim` on the character list (strip whitespace at both ends). -/
def trimChars (l : List Char) : List Char :=
  ((l.dropWhile Char.isWhitespace).reverse.dropWhile Char.isWhitespace).reverse

/-- The cleaned text of `createExcerpt`: markdown characters and newlines
removed, then trimmed. -/
def cleanContent (c : String) : List Char :=
  trimChars (c.data.filter (fun ch => !(mdChars.contains ch)))

/-- `createExcerpt` from `src/index.js`:
`if (!content) return null;` then strip markdown characters, trim, take the
first 150 characters and append `"..."` when the cleaned text was longer. -/
def createExcerpt (content : Option String) : Option String :=
  match content with
  | none => none
  | some c =>
    if c = "" then none
    else
      let clean := cleanContent c
      some ⟨clean.take 150 ++ (if 150 < clean.length then ['.', '.', '.'] else [])⟩

/-! ## Admin authentication gate (`authMiddleware`) -/

/-- `!apiKeyHeader || apiKeyHeader !== env.WEBAPP_APIKEY` passes only when the
header is a truthy string equal to the secret. -/
def authCheck (header : Option String) (secret : String) : Bool :=
  match header with
  | none => false
  | some h => !(h = "") && h = secret

/-- An admin route: the middleware runs first and short-circuits with 401
before the handler (the business logic) touches the database. -/
def adminRoute (header : Option String) (secret : String)
    (handler : DB → Except ApiError String × DB) (db : DB) :
    Except ApiError String × DB :=
  if authCheck header secret then handler db else (.error .unauthorized, db)

/-! ## Create (`adminArticles.post('/articles')`) -/

/-- Request body of the create route (destructured fields; `none` = key absent). -/
structure CreateBody where
  slug : Option String := none
  title : Option String := none
  content : Option String := none
  featured_image : Option String := none
  category : Option String := none
  author : Option String := none
  status : Option String := none
  meta_title : Option String := none
  meta_description : Option String := none
deriving Repr, DecidableEq

/-- `(status && status.toLowerCase() === 'published')` of the create route. -/
def isPublishedReq (status : Option String) : Bool :=
  match status with
  | none => false
  | some s => !(s = "") && jsToLower s = "published"

/-- The POST handler: validate required fields, derive `published_at` and
`excerpt`, insert the row; a slug hitting the `UNIQUE` constraint is reported
as a 409 conflict and leaves the table untouched. -/
def postArticle (db : DB) (b : CreateBody) (now : Nat) :
    Except ApiError String × DB :=
  match b.slug, b.title, b.content with
  | some slug, some title, some content =>
    if slug = "" || title = "" || content = "" then (.error .validation, db)
    else
      let published_at : Option Nat := if isPublishedReq b.status then some now else none
      let excerpt := createExcerpt (some content)
      let row : Article :=
        { slug := slug, title := title, excerpt := excerpt, content := some content
          featured_image := nullIfFalsy b.featured_image
          category := nullIfFalsy b.category
          author := jsOr b.author "Admin"
          status := jsOr b.status "draft"
          published_at := published_at
          meta_title := nullIfFalsy b.meta_title
          meta_description := nullIfFalsy b.meta_description
          created_at := now, updated_at := now }
      if db.any (fun a => a.slug == slug) then (.error .conflict, db)
      else (.ok slug, db ++ [row])
  | _, _, _ => (.error .validation, db)

/-! ## Update (`adminArticles.put('/articles')`) -/

/-- Request body of the update route. -/
structure UpdateBody where
  slug : Option String := none
  title : Option String := none
  content : Option String := none
  featured_image : Option String := none
  category : Option String := none
  author : Option String := none
  status : Option String := none
  meta_title : Option String := none
  meta_description : Option String := none
deriving Repr, DecidableEq

/-- `const newStatus = (status && status.toLowerCase()) || existingArticle.status`. -/
def newStatusOf (requested : Option String) (existingStatus : String) : String :=
  match requested with
  | none => existingStatus
  | some s => if s = "" then existingStatus else jsToLower s

/-- The `LOGIKA PUBLISHED_AT` block: stamp when becoming published without a
date, clear when leaving published with a date, keep otherwise. -/
def updatePublishedAt (newStatus : String) (existingPub : Option Nat) (now : Nat) :
    Option Nat :=
  if newStatus == "published" && existingPub.isNone then some now
  else if newStatus != "published" && existingPub.isSome then none
  else existingPub

/-- Number of `SET` clauses the handler builds: `published_at` always, the
excerpt and content clauses when `content` is supplied, and one clause per
defined field of `{title, featured_image, category, author, status, meta_title,
meta_description}` — where `status` holds `newStatus`, which is always defined. -/
def updateClauses (b : UpdateBody) : Nat :=
  1
  + (if b.content.isSome then 1 else 0)
  + (([b.title, b.featured_image, b.category, b.author,
      b.meta_title, b.meta_description].filter Option.isSome).length + 1)
  + (if b.content.isSome then 1 else 0)

/-- Effect of the generated `UPDATE ... SET` on one matching row. -/
def applyUpdateRow (b : UpdateBody) (newStatus : String) (pubVal : Option Nat)
    (now : Nat) (a : Article) : Article :=
  { a with
    published_at := pubVal
    excerpt := if b.content.isSome then createExcerpt b.content else a.excerpt
    title := b.title.getD a.title
    featured_image :=
      match b.featured_image with | none => a.featured_image | some v => some v
    category := match b.category with | none => a.category | some v => some v
    author := b.author.getD a.author
    status := newStatus
    meta_title := match b.meta_title with | none => a.meta_title | some v => some v
    meta_description :=
      match b.meta_description with | none => a.meta_description | some v => some v
    content := match b.content with | none => a.content | some v => some v
    updated_at := now }

/-- The PUT handler: slug required, existing row looked up first, then the
publish-date logic, the clause construction with its `setClauses.length <= 1`
guard, and the `UPDATE ... WHERE slug = ?` with its zero-changes check. -/
def putArticle (db : DB) (b : UpdateBody) (now : Nat) :
    Except ApiError String × DB :=
  match b.slug with
  | none => (.error .validation, db)
  | some targetSlug =>
    if targetSlug = "" then (.error .validation, db)
    else
      match db.find? (fun a => a.slug == targetSlug) with
      | none => (.error .notFound, db)
      | some existing =>
        let newStatus := newStatusOf b.status existing.status
        let pubVal := updatePublishedAt newStatus existing.published_at now
        if updateClauses b ≤ 1 then (.error .validation, db)
        else
          let db2 := db.map (fun a =>
            if a.slug == targetSlug then applyUpdateRow b newStatus pubVal now a else a)
          if (db.filter (fun a => a.slug == targetSlug)).length = 0 then
            (.error .notFound, db2)
          else (.ok targetSlug, db2)

/-! ## Public read path -/

/-- `category` query parameter: empty string is falsy, so it neither filters
nor gets echoed (`category || null`). -/
def catFilter : Option String → Option String
  | none => none
  | some c => if c = "" then none else some c

/-- The row predicate of the list query:
`WHERE status = 'published' [AND category = ?]`. -/
def matchesList (category : Option String) (a : Article) : Bool :=
  a.status == "published" &&
    (match catFilter category with
     | none => true
     | some c => a.category == some c)

/-- `ORDER BY published_at DESC` as a boolean "comes no later than" relation:
SQL NULLs sort below every value, so they come last in descending order. -/
def pubGe (a b : Article) : Bool :=
  match a.published_at, b.published_at with
  | none, none => true
  | none, some _ => false
  | some _, none => true
  | some x, some y => y ≤ x

/-- Pagination metadata returned by the list route. -/
structure Pagination where
  page : Nat
  size : Nat
  total_items : Nat
  total_pages : Nat
  category : Option String
deriving Repr, DecidableEq

/-- Successful payload of the list route. -/
structure ListResult where
  data : List Article
  pagination : Pagination
deriving Repr, DecidableEq

/-- `GET /api/articles`: filter to published (optionally by category), order by
`published_at DESC`, apply `LIMIT size OFFSET (page-1)*size`, and report
`total_items` with `total_pages = Math.ceil(total/size)`. -/
def getArticles (db : DB) (page size : Nat) (category : Option String) : ListResult :=
  let offset := (page - 1) * size
  let filtered := db.filter (matchesList category)
  let sorted := filtered.mergeSort pubGe
  { data := (sorted.drop offset).take size
    pagination :=
      { page := page, size := size
        total_items := filtered.length
        total_pages := (filtered.length + size - 1) / size
        category := catFilter category } }

/-- `GET /api/articles/:slug`:
`WHERE slug = ? AND status = 'published' LIMIT 1`, 404 when no row matches. -/
def getArticleBySlug (db : DB) (slug : String) : Except ApiError Article :=
  match (db.filter (fun a => a.slug == slug && a.status == "published")).head? with
  | none => .error .notFound
  | some a => .ok a

/-! ## Sample data used by concrete checks -/

/-- A draft article row, as stored after a plain create. -/
def sampleDraft : Article :=
  { slug := "a", title := "T", excerpt := some "E", content := some "c"
    featured_image := none, category := none, author := "Admin"
    status := "draft", published_at := none, meta_title := none
    meta_description := none, created_at := 0, updated_at := 0 }

/-! ## Helper lemmas -/

theorem updateClauses_ge_two (b : UpdateBody) : 2 ≤ updateClauses b := by
  cases h : b.content.isSome <;> simp [updateClauses, h] <;> omega

theorem pubGe_trans (a b c : Article) :
    pubGe a b → pubGe b c → pubGe a c := by
  unfold pubGe
  cases a.published_at <;> cases b.published_at <;> cases c.published_at <;>
    simp <;> omega

theorem pubGe_total (a b : Article) : pubGe a b || pubGe b a := by
  unfold pubGe
  cases a.published_at <;> cases b.published_at <;> simp <;> omega

theorem ceil_bounds (n s : Nat) (hs : 1 ≤ s) :
    n ≤ ((n + s - 1) / s) * s ∧ ((n + s - 1) / s) * s < n + s := by
  have hd := Nat.div_add_mod (n + s - 1) s
  have hm : (n + s - 1) % s < s := Nat.mod_lt _ (by omega)
  rw [Nat.mul_comm ((n + s - 1) / s) s]
  generalize hR : (n + s - 1) % s = r at hd hm
  generalize hX : s * ((n + s - 1) / s) = X at hd
  omega

/-- Everything the public list returns carries status `'published'`. -/
theorem status_of_mem_getArticles {db : DB} {p s : Nat} {cat : Option String}
    {a : Article} (h : a ∈ (getArticles db p s cat).data) :
    a.status = "published" := by
  have h1 : a ∈ (db.filter (matchesList cat)).mergeSort pubGe :=
    List.mem_of_mem_drop (List.mem_of_mem_take h)
  have h2 : a ∈ db.filter (matchesList cat) := List.mem_mergeSort.mp h1
  have h3 := (List.mem_filter.mp h2).2
  simp only [matchesList, Bool.and_eq_true, beq_iff_eq] at h3
  exact h3.1

/-- Shape of a successful update: when the slug is supplied, non-empty and
found, the handler rewrites every matching row with the computed clauses. -/
theorem putArticle_found (db : DB) (b : UpdateBody) (now : Nat) (s : String)
    (existing : Article) (hb : b.slug = some s) (hs : ¬(s = ""))
    (hfind : db.find? (fun a => a.slug == s) = some existing) :
    putArticle db b now =
      (Except.ok s, db.map (fun a =>
        if a.slug == s then
          applyUpdateRow b (newStatusOf b.status existing.status)
            (updatePublishedAt (newStatusOf b.status existing.status)
              existing.published_at now) now a
        else a)) := by
  have hmem : existing ∈ db := List.mem_of_find?_eq_some hfind
  have hpred := List.find?_some hfind
  have hfl : existing ∈ db.filter (fun a => a.slug == s) :=
    List.mem_filter.mpr ⟨hmem, hpred⟩
  have hlen : ¬ (db.filter (fun a => a.slug == s)).length = 0 := by
    intro h0
    rw [List.length_eq_zero] at h0
    rw [h0] at hfl
    exact absurd hfl (List.not_mem_nil _)
  have hcl := updateClauses_ge_two b
  unfold putArticle
  rw [hb]
  simp only [if_neg hs, hfind, if_neg (by omega : ¬ updateClauses b ≤ 1), if_neg hlen]

/-- Inversion of a successful create: the required fields were present and
non-empty, the reported slug is the supplied one, and the slug was free. -/
theorem postArticle_ok_inv (db : DB) (b : CreateBody) (now : Nat) (s : String)
    (hok : (postArticle db b now).1 = Except.ok s) :
    ∃ slug title content, b.slug = some slug ∧ b.title = some title ∧
      b.content = some content ∧ ¬(slug = "") ∧ ¬(title = "") ∧
      ¬(content = "") ∧ slug = s ∧
      db.any (fun a => a.slug == slug) = false := by
  rcases h1 : b.slug with _ | slug <;>
    rcases h2 : b.title with _ | title <;>
      rcases h3 : b.content with _ | content <;>
        simp only [postArticle, h1, h2, h3] at hok <;>
          try exact Except.noConfusion hok
  refine ⟨slug, title, content, rfl, rfl, rfl, ?_⟩
  by_cases e1 : slug = ""
  · rw [if_pos (show (decide (slug = "") || decide (title = "") ||
        decide (content = "")) = true by simp [e1])] at hok
    exact Except.noConfusion hok
  by_cases e2 : title = ""
  · rw [if_pos (show (decide (slug = "") || decide (title = "") ||
        decide (content = "")) = true by simp [e2])] at hok
    exact Except.noConfusion hok
  by_cases e3 : content = ""
  · rw [if_pos (show (decide (slug = "") || decide (title = "") ||
        decide (content = "")) = true by simp [e3])] at hok
    exact Except.noConfusion hok
  rw [if_neg (show ¬ (decide (slug = "") || decide (title = "") ||
      decide (content = "")) = true by simp [e1, e2, e3])] at hok
  rcases hfree : db.any (fun a => a.slug == slug) with _ | _
  · rw [if_neg (show ¬ (db.any (fun a => a.slug == slug)) = true by
      rw [hfree]; simp)] at hok
    injection hok with h
    exact ⟨e1, e2, e3, h, rfl⟩
  · rw [if_pos (show (db.any (fun a => a.slug == slug)) = true by rw [hfree])] at hok
    exact Except.noConfusion hok

/-- Shape of a successful create: the new row is appended to the table. -/
theorem postArticle_ok_of (db : DB) (b : CreateBody) (now : Nat)
    (slug title content : String)
    (h1 : b.slug = some slug) (h2 : b.title = some title)
    (h3 : b.content = some content)
    (e1 : ¬(slug = "")) (e2 : ¬(title = "")) (e3 : ¬(content = ""))
    (hfree : db.any (fun a => a.slug == slug) = false) :
    postArticle db b now =
      (Except.ok slug, db ++
        [{ slug := slug, title := title
           excerpt := createExcerpt (some content), content := some content
           featured_image := nullIfFalsy b.featured_image
           category := nullIfFalsy b.category
           author := jsOr b.author "Admin"
           status := jsOr b.status "draft"
           published_at := if isPublishedReq b.status then some now else none
           meta_title := nullIfFalsy b.meta_title
           meta_description := nullIfFalsy b.meta_description
           created_at := now, updated_at := now }]) := by
  simp only [postArticle, h1, h2, h3, e1, e2, e3, hfree, decide_False,
    Bool.false_or, Bool.or_self, Bool.false_eq_true, if_false]

/-- Shape of a create that hits an existing slug: 409, table untouched. -/
theorem postArticle_conflict (db : DB) (b : CreateBody) (now : Nat)
    (slug title content : String)
    (h1 : b.slug = some slug) (h2 : b.title = some title)
    (h3 : b.content = some content)
    (e1 : ¬(slug = "")) (e2 : ¬(title = "")) (e3 : ¬(content = ""))
    (hany : db.any (fun a => a.slug == slug) = true) :
    postArticle db b now = (Except.error ApiError.conflict, db) := by
  simp only [postArticle, h1, h2, h3]
  rw [if_neg (show ¬ (decide (slug = "") || decide (title = "") ||
      decide (content = "")) = true by simp [e1, e2, e3]), if_pos hany]

end WebAppPro

namespace WebAppPro

/-! ## Claim theorems -/

/-- C1: the spec requires an update whose body carries no recognized field to
fail with `ValidationError` (400); the code's `setClauses.length <= 1` guard is
dead because the `status` clause is always pushed, so such a request succeeds.
This theorem evaluates the handler at the failing input: a body holding only
the slug of an existing article. -/
theorem update_only_unrecognized_keys_succeeds :
    (putArticle [sampleDraft] { slug := some "a" } 9).1 = Except.ok "a" ∧
    (putArticle [sampleDraft] { slug := some "a" } 9).1 ≠
      Except.error ApiError.validation ∧
    errStatus ApiError.validation = 400 := by
  have h : (putArticle [sampleDraft] ({ slug := some "a" } : UpdateBody) 9).1 =
      Except.ok "a" := rfl
  exact ⟨h, by rw [h]; simp, rfl⟩

/-- C2: `createExcerpt` is absent iff the content is absent or empty; otherwise
it is the markdown-stripped, trimmed text cut to 150 characters, with `"..."`
appended exactly when the cleaned text is longer than 150, and the result never
exceeds 153 characters. -/
theorem createExcerpt_spec (content : Option String) :
    (createExcerpt content = none ↔ content = none ∨ content = some "") ∧
    (∀ c : String, content = some c → ¬(c = "") →
      createExcerpt content =
        some ⟨(cleanContent c).take 150 ++
          (if 150 < (cleanContent c).length then ['.', '.', '.'] else [])⟩ ∧
      (∀ out : String, createExcerpt content = some out → out.length ≤ 153) ∧
      ((cleanContent c).length ≤ 150 → createExcerpt content = some ⟨cleanContent c⟩)) := by
  constructor
  · cases content with
    | none => simp [createExcerpt]
    | some c => by_cases hc : c = "" <;> simp [createExcerpt, hc]
  · intro c hc hne
    subst hc
    refine ⟨by simp [createExcerpt, hne], ?_, ?_⟩
    · intro out hout
      simp only [createExcerpt, if_neg hne, Option.some_inj] at hout
      have hlen : out.length =
          ((cleanContent c).take 150).length +
            (if 150 < (cleanContent c).length then ['.', '.', '.'] else []).length := by
        rw [← hout]
        simp [String.length]
      have h1 : ((cleanContent c).take 150).length ≤ 150 := List.length_take_le _ _
      have h2 : (if 150 < (cleanContent c).length then ['.', '.', '.'] else []).length ≤ 3 := by
        split <;> simp
      omega
    · intro hle
      simp only [createExcerpt, if_neg hne, Option.some_inj]
      rw [if_neg (by omega), List.take_of_length_le hle]
      simp

/-- C2 witness: a concrete run through the spec theorem. -/
theorem createExcerpt_spec_witness :
    createExcerpt (some "# Hello") = some "Hello" := by
  have h := (createExcerpt_spec (some "# Hello")).2 "# Hello" rfl (by decide)
  have h3 := h.2.2 (by decide)
  rw [h3]
  decide

/-- C3 counterexample: the claim reads the effective status as the requested
status itself; with requested status `"Published"` (≠ `"published"`) and no
stored publish date, the claim's "otherwise unchanged" arm predicts an absent
`publishedAt`, yet the handler lowercases the request and stamps it. -/
theorem update_publishedAt_counterexample :
    some "Published" ≠ some "published" ∧
    sampleDraft.published_at = none ∧
    ((putArticle [sampleDraft] { slug := some "a", status := some "Published" } 5).2.map
      Article.published_at) = [some 5] := by
  decide

/-- C3 (amended): the effective status is the lowercased requested status when
supplied, else the stored status verbatim; if it equals `"published"` and no
`publishedAt` exists the row is stamped with the call's timestamp (so a
re-publish after a clear gets a fresh date, never the old one), if it differs
from `"published"` while a `publishedAt` exists the date is cleared, and
otherwise it is unchanged. -/
theorem update_publishedAt_policy (db : DB) (b : UpdateBody) (now : Nat)
    (s : String) (existing : Article)
    (hb : b.slug = some s) (hs : ¬(s = ""))
    (hfind : db.find? (fun a => a.slug == s) = some existing) :
    ∀ a' ∈ (putArticle db b now).2, a'.slug = s →
      ((newStatusOf b.status existing.status = "published" →
          existing.published_at = none → a'.published_at = some now) ∧
       (newStatusOf b.status existing.status = "published" →
          existing.published_at ≠ none → a'.published_at = existing.published_at) ∧
       (¬ newStatusOf b.status existing.status = "published" →
          a'.published_at = none)) := by
  rw [putArticle_found db b now s existing hb hs hfind]
  intro a' ha' hslug
  rcases List.mem_map.mp ha' with ⟨a, hadb, hfa⟩
  by_cases hcase : (a.slug == s) = true
  · rw [if_pos hcase] at hfa
    subst hfa
    simp only [applyUpdateRow]
    refine ⟨?_, ?_, ?_⟩
    · intro hns hpub
      simp [updatePublishedAt, hns, hpub]
    · intro hns hpub
      rcases hx : existing.published_at with _ | v
      · exact absurd hx hpub
      · simp [updatePublishedAt, hns, hx]
    · intro hns
      have hbe : (newStatusOf b.status existing.status == "published") = false := by
        simp [hns]
      rcases hx : existing.published_at with _ | v <;>
        simp [updatePublishedAt, bne, hbe, hx]
  · rw [if_neg hcase] at hfa
    subst hfa
    exact absurd (by simp [hslug]) hcase

/-- C3 witness: a draft updated with status `"PUBLISHED"` gets stamped now. -/
theorem update_publishedAt_policy_witness :
    ((putArticle [sampleDraft] { slug := some "a", status := some "PUBLISHED" } 5).2.headD
      sampleDraft).published_at = some 5 := by
  have h := update_publishedAt_policy [sampleDraft]
    { slug := some "a", status := some "PUBLISHED" } 5 "a" sampleDraft
    rfl (by decide) rfl
  exact (h _ (by decide) (by decide)).1 (by decide) (by decide)

/-- C5: a successful create with `status` omitted appends one row whose status
is `"draft"`, whose `publishedAt` is absent, whose `createdAt` and `updatedAt`
both hold the call's timestamp, and whose author defaults to `"Admin"` when
absent. -/
theorem create_status_omitted (db : DB) (b : CreateBody) (now : Nat) (s : String)
    (hst : b.status = none) (hok : (postArticle db b now).1 = Except.ok s) :
    ∃ row : Article, (postArticle db b now).2 = db ++ [row] ∧
      row.status = "draft" ∧ row.published_at = none ∧
      row.created_at = now ∧ row.updated_at = now ∧
      (b.author = none → row.author = "Admin") := by
  rcases postArticle_ok_inv db b now s hok with
    ⟨slug, title, content, h1, h2, h3, e1, e2, e3, _, hfree⟩
  rw [postArticle_ok_of db b now slug title content h1 h2 h3 e1 e2 e3 hfree]
  refine ⟨_, rfl, ?_, ?_, rfl, rfl, ?_⟩
  · simp [jsOr, hst]
  · simp [isPublishedReq, hst]
  · intro hauth
    simp [jsOr, hauth]

/-- C5 witness: a concrete create with status omitted. -/
theorem create_status_omitted_witness :
    (postArticle [] { slug := some "w5", title := some "T", content := some "c" } 3).2.map
      Article.status = ["draft"] := by
  rcases create_status_omitted []
      { slug := some "w5", title := some "T", content := some "c" } 3 "w5" rfl rfl with
    ⟨row, hdb, hstat, _⟩
  rw [hdb, List.nil_append, List.map_cons, List.map_nil, hstat]

/-- C6: once a create with slug `s` succeeded, a second well-formed create
carrying the same slug fails with `ConflictError` (409, a status distinct from
the generic 500 `PersistenceError`) and leaves the table — the first row
included — untouched. -/
theorem create_duplicate_slug_conflict (db : DB) (b1 b2 : CreateBody)
    (t1 t2 : Nat) (s : String)
    (h1 : (postArticle db b1 t1).1 = Except.ok s)
    (h2 : b2.slug = some s)
    (ht : ¬ falsyStr b2.title = true) (hc : ¬ falsyStr b2.content = true) :
    postArticle (postArticle db b1 t1).2 b2 t2 =
      (Except.error ApiError.conflict, (postArticle db b1 t1).2) ∧
    errStatus ApiError.conflict = 409 ∧
    errStatus ApiError.conflict ≠ errStatus ApiError.persistence := by
  rcases postArticle_ok_inv db b1 t1 s h1 with
    ⟨slug, title, content, hb1, hb2, hb3, e1, e2, e3, hes, hfree⟩
  subst hes
  rcases hbt : b2.title with _ | u
  · exact absurd (by simp [falsyStr, hbt]) ht
  rcases hbc : b2.content with _ | w
  · exact absurd (by simp [falsyStr, hbc]) hc
  have ht2 : ¬ (u = "") := by
    intro h
    exact ht (by simp [falsyStr, hbt, h])
  have hc2 : ¬ (w = "") := by
    intro h
    exact hc (by simp [falsyStr, hbc, h])
  have hany : ((postArticle db b1 t1).2.any (fun a => a.slug == slug)) = true := by
    rw [postArticle_ok_of db b1 t1 slug title content hb1 hb2 hb3 e1 e2 e3 hfree]
    simp
  refine ⟨?_, rfl, by simp [errStatus]⟩
  exact postArticle_conflict _ b2 t2 slug u w h2 hbt hbc e1 ht2 hc2 hany

/-- C6 witness: two concrete creates with the same slug. -/
theorem create_duplicate_slug_conflict_witness :
    postArticle (postArticle [] { slug := some "d", title := some "T", content := some "c" } 1).2
      { slug := some "d", title := some "U", content := some "e" } 2 =
      (Except.error ApiError.conflict,
        (postArticle [] { slug := some "d", title := some "T", content := some "c" } 1).2) := by
  exact (create_duplicate_slug_conflict []
    { slug := some "d", title := some "T", content := some "c" }
    { slug := some "d", title := some "U", content := some "e" }
    1 2 "d" rfl rfl (by decide) (by decide)).1

/-- C4: the public list takes the published rows matching the category filter,
sorts them by `published_at` descending, serves the window
`LIMIT size OFFSET (page-1)*size` (hence at most `size` rows), and reports the
matching count, its ceiling-divided page total, the echoed page and size, and
a null category when none was given. -/
theorem getArticles_spec (db : DB) (p s : Nat) (cat : Option String)
    (hp : 1 ≤ p) (hs : 1 ≤ s) :
    (getArticles db p s cat).data =
      (((db.filter (matchesList cat)).mergeSort pubGe).drop ((p - 1) * s)).take s ∧
    (getArticles db p s cat).data.length ≤ s ∧
    List.Pairwise (fun a b => pubGe a b = true) (getArticles db p s cat).data ∧
    (getArticles db p s cat).pagination.total_items =
      (db.filter (matchesList cat)).length ∧
    (getArticles db p s cat).pagination.total_items ≤
      (getArticles db p s cat).pagination.total_pages * s ∧
    (getArticles db p s cat).pagination.total_pages * s <
      (getArticles db p s cat).pagination.total_items + s ∧
    (getArticles db p s cat).pagination.page = p ∧
    (getArticles db p s cat).pagination.size = s ∧
    (getArticles db p s cat).pagination.category = catFilter cat ∧
    (cat = none → (getArticles db p s cat).pagination.category = none) := by
  have hsorted : List.Pairwise (fun a b => pubGe a b = true)
      ((db.filter (matchesList cat)).mergeSort pubGe) :=
    List.sorted_mergeSort pubGe_trans pubGe_total _
  have hsub :
      ((((db.filter (matchesList cat)).mergeSort pubGe).drop ((p - 1) * s)).take s).Sublist
        ((db.filter (matchesList cat)).mergeSort pubGe) :=
    (List.take_sublist _ _).trans (List.drop_sublist _ _)
  have hceil := ceil_bounds (db.filter (matchesList cat)).length s hs
  exact ⟨rfl, List.length_take_le _ _, hsorted.sublist hsub, rfl, hceil.1, hceil.2,
    rfl, rfl, rfl, fun hcat => by subst hcat; rfl⟩

/-- C4 witness: a concrete page-2 listing. -/
theorem getArticles_spec_witness :
    (getArticles [sampleDraft] 2 10 none).data.length ≤ 10 ∧
    (getArticles [sampleDraft] 2 10 none).pagination.page = 2 := by
  have h := getArticles_spec [sampleDraft] 2 10 none (by decide) (by decide)
  exact ⟨h.2.1, h.2.2.2.2.2.2.1⟩

/-- C7: an article whose stored status is not `"published"` never shows up in
any public list page (any page, size or category) and its slug 404s on the
public get-by-slug even though the row exists. -/
theorem unpublished_invisible (db : DB) (a : Article)
    (ha : a ∈ db) (hst : ¬ a.status = "published")
    (huniq : ∀ b ∈ db, b.slug = a.slug → b = a) :
    (∀ p s cat, a ∉ (getArticles db p s cat).data) ∧
    getArticleBySlug db a.slug = Except.error ApiError.notFound := by
  constructor
  · intro p s cat hmem
    exact hst (status_of_mem_getArticles hmem)
  · unfold getArticleBySlug
    rcases hfl : db.filter (fun x => x.slug == a.slug && x.status == "published") with
      _ | ⟨b, t⟩
    · rw [hfl]
      rfl
    · exfalso
      have hbmem : b ∈ db.filter (fun x => x.slug == a.slug && x.status == "published") := by
        rw [hfl]
        exact List.mem_cons_self _ _
      rcases List.mem_filter.mp hbmem with ⟨hbdb, hcond⟩
      simp only [Bool.and_eq_true, beq_iff_eq] at hcond
      have hba : b = a := huniq b hbdb hcond.1
      exact hst (hba ▸ hcond.2)

/-- C7 witness: the seeded draft row is invisible on both public paths. -/
theorem unpublished_invisible_witness :
    sampleDraft ∉ (getArticles [sampleDraft] 1 10 none).data ∧
    getArticleBySlug [sampleDraft] "a" = Except.error ApiError.notFound := by
  have h := unpublished_invisible [sampleDraft] sampleDraft
    (List.mem_cons_self _ _) (by decide) (by decide)
  exact ⟨h.1 1 10 none, h.2⟩

/-- C8 counterexample: an update supplying status `"Archived"` succeeds but
stores `"archived"`, not the exact string the caller sent. -/
theorem update_status_lowercased_counterexample :
    (putArticle [sampleDraft] { slug := some "a", status := some "Archived" } 5).1 =
      Except.ok "a" ∧
    (putArticle [sampleDraft] { slug := some "a", status := some "Archived" } 5).2.map
      Article.status = ["archived"] ∧
    ¬ ("archived" = "Archived") := by
  exact ⟨rfl, by decide, by decide⟩

/-- C8 (amended): a status value outside the recognized ones is accepted — the
operation does not fail on account of it; create stores the supplied non-empty
string verbatim, while update stores its lowercased form. -/
theorem status_accepted_create_verbatim_update_lowercase :
    (∀ (db : DB) (b : CreateBody) (now : Nat) (st slug title content : String),
      b.status = some st → ¬(st = "") →
      b.slug = some slug → ¬(slug = "") →
      b.title = some title → ¬(title = "") →
      b.content = some content → ¬(content = "") →
      db.any (fun a => a.slug == slug) = false →
      (postArticle db b now).1 = Except.ok slug ∧
      ∀ row : Article, (postArticle db b now).2 = db ++ [row] → row.status = st) ∧
    (∀ (db : DB) (b : UpdateBody) (now : Nat) (st s : String) (existing : Article),
      b.status = some st → ¬(st = "") →
      b.slug = some s → ¬(s = "") →
      db.find? (fun a => a.slug == s) = some existing →
      (putArticle db b now).1 = Except.ok s ∧
      ∀ a' ∈ (putArticle db b now).2, a'.slug = s → a'.status = jsToLower st) := by
  constructor
  · intro db b now st slug title content hst hstne h1 e1 h2 e2 h3 e3 hfree
    rw [postArticle_ok_of db b now slug title content h1 h2 h3 e1 e2 e3 hfree]
    refine ⟨rfl, ?_⟩
    intro row hrow
    have hrow2 := List.append_cancel_left hrow
    have hre : row.status = jsOr b.status "draft" := by
      rw [← (List.cons.injEq _ _ _ _).mp hrow2 |>.1]
    rw [hre]
    simp [jsOr, hst, hstne]
  · intro db b now st s existing hst hstne hb hs hfind
    rw [putArticle_found db b now s existing hb hs hfind]
    refine ⟨rfl, ?_⟩
    intro a' ha' hslug
    rcases List.mem_map.mp ha' with ⟨a, hadb, hfa⟩
    by_cases hcase : (a.slug == s) = true
    · rw [if_pos hcase] at hfa
      subst hfa
      simp [applyUpdateRow, newStatusOf, hst, hstne]
    · rw [if_neg hcase] at hfa
      subst hfa
      exact absurd (by simp [hslug]) hcase

/-- C8 witness: a create and an update each carrying status `"Weird"` succeed. -/
theorem status_accepted_witness :
    (postArticle []
      { slug := some "v", title := some "T", content := some "c",
        status := some "Weird" } 1).1 = Except.ok "v" ∧
    (putArticle [sampleDraft] { slug := some "a", status := some "Weird" } 2).1 =
      Except.ok "a" := by
  have h1 := (status_accepted_create_verbatim_update_lowercase.1 []
    { slug := some "v", title := some "T", content := some "c", status := some "Weird" }
    1 "Weird" "v" "T" "c" rfl (by decide) rfl (by decide) rfl (by decide) rfl
    (by decide) rfl).1
  have h2 := (status_accepted_create_verbatim_update_lowercase.2 [sampleDraft]
    { slug := some "a", status := some "Weird" } 2 "Weird" "a" sampleDraft
    rfl (by decide) rfl (by decide) rfl).1
  exact ⟨h1, h2⟩

/-- C9: any admin request whose `X-API-Key` header is absent or differs from
the server secret gets 401 with the database untouched, whatever handler sits
behind the gate — the business logic never runs. -/
theorem auth_gate_rejects (header : Option String) (secret : String)
    (h : header = none ∨ header ≠ some secret) :
    ∀ (handler : DB → Except ApiError String × DB) (db : DB),
      adminRoute header secret handler db = (Except.error ApiError.unauthorized, db) ∧
      errStatus ApiError.unauthorized = 401 := by
  intro handler db
  have hc : authCheck header secret = false := by
    cases header with
    | none => rfl
    | some hd =>
      rcases h with h | h
      · exact absurd h (by simp)
      · have hne : hd ≠ secret := fun he => h (by rw [he])
        simp [authCheck, hne]
  simp [adminRoute, hc, errStatus]

/-- C9 witness: a wrong key is rejected without the handler's write happening. -/
theorem auth_gate_rejects_witness :
    adminRoute (some "wrong") "secret"
      (fun db => (Except.ok "x", sampleDraft :: db)) [] =
      (Except.error ApiError.unauthorized, []) :=
  (auth_gate_rejects (some "wrong") "secret" (Or.inr (by decide)) _ []).1

/-- A create request whose status is `"Published"` — published up to case only. -/
def hiddenBody : CreateBody :=
  { slug := some "h", title := some "T", content := some "x",
    status := some "Published" }

/-- The table after creating `hiddenBody` into an empty table at time 7. -/
def hiddenDB : DB := (postArticle [] hiddenBody 7).2

/-- C10: creating with status `"Published"` (case-differing from
`"published"`) stamps `published_at` — the create check lowercases — yet the
row is invisible to the public list and get-by-slug, which compare the stored
status for exact equality; so a present `publishedAt` does not imply public
visibility. -/
theorem published_stamp_without_visibility :
    (postArticle [] hiddenBody 7).1 = Except.ok "h" ∧
    hiddenDB.map Article.published_at = [some 7] ∧
    hiddenDB.map Article.status = ["Published"] ∧
    (∀ p s cat, hiddenDB.headD sampleDraft ∉ (getArticles hiddenDB p s cat).data) ∧
    getArticleBySlug hiddenDB "h" = Except.error ApiError.notFound := by
  refine ⟨rfl, rfl, rfl, ?_, rfl⟩
  intro p s cat hmem
  exact absurd (status_of_mem_getArticles hmem) (by decide)

end WebAppPro
